import Mathlib

/-!
Shallow embedding of the Strava segment tracker
(src/strava_daily_tracker.py), covering the daily-log accumulator
`update_master_log`, the renderer series construction in `generate_plot`,
and the `__main__` fetch/update/plot loop.

Dates are modelled as integers (day numbers), machine integers as `Int`
(Python ints are unbounded).  The persisted CSV file is modelled by its
parse outcome (`LogFile`): a missing file, an empty file (size 0 or
pandas `EmptyDataError`), a file whose read raises a generic exception
(`corrupt`), a file whose read raises `KeyError` (`badColumns`, carrying
any rows appended after the bad header, which remain unreadable), or a
well-formed file parsing to a list of records.
-/

/-- One parsed row of `all_segments_log.csv`.  `segment_id` is read with
pandas dtype `Int64` (nullable), so it is an `Option Int`; `none` models a
missing (NA) id.  `total_attempts_on_date` is `none` when the cell is NaN,
missing, or not convertible to an integer (lines 202-211 treat all of
these as 0). -/
structure LogRecord where
  segment_id : Option Int
  segment_name : String
  date : Int
  total_attempts_on_date : Option Int
  daily_attempts : Int
  athlete_count : Int
deriving Repr, DecidableEq

/-- The dictionary produced by `get_segment_data` as consumed by
`update_master_log`.  `id` is the result of `int(segment_data['id'])`:
`none` models a value whose conversion raises `ValueError`/`TypeError`
(line 165-169). -/
structure SegmentData where
  id : Option Int
  name : String
  effort_count : Int
  athlete_count : Int
deriving Repr, DecidableEq

/-- Parse outcome of the master CSV file, as distinguished by
`update_master_log` lines 181-245. -/
inductive LogFile where
  /-- `os.path.exists` is false (line 181). -/
  | missing : LogFile
  /-- file exists with size 0, or pandas raises `EmptyDataError`
  (lines 182, 223-227). -/
  | emptyData : LogFile
  /-- `pd.read_csv` raises a generic `Exception` (lines 236-240). -/
  | corrupt : LogFile
  /-- `pd.read_csv` raises `KeyError` (lines 228-235); the payload holds
  rows appended after the unreadable header, themselves unreadable. -/
  | badColumns : List LogRecord → LogFile
  /-- the file parses into a DataFrame with these rows. -/
  | ok : List LogRecord → LogFile
deriving Repr, DecidableEq

/-- The filter on line 191:
`df['segment_id'].notna() & (df['segment_id'] == segment_id_int)`. -/
def matchesSegment (sid : Int) (r : LogRecord) : Bool :=
  decide (r.segment_id = some sid)

/-- Comparison used by `sort_values(by='date')` (line 191). -/
def dateLE (a b : LogRecord) : Prop :=
  a.date ≤ b.date

instance : DecidableRel dateLE :=
  fun a b => inferInstanceAs (Decidable (a.date ≤ b.date))

instance : IsTotal LogRecord dateLE :=
  ⟨fun a b => Int.le_total a.date b.date⟩

instance : IsTrans LogRecord dateLE :=
  ⟨fun _ _ _ hab hbc => le_trans hab hbc⟩

/-- `segment_df.sort_values(by='date')` (line 191), modelled by a stable
sort on the date column. -/
def sortByDate (recs : List LogRecord) : List LogRecord :=
  List.insertionSort dateLE recs

/-- `segment_df.iloc[-1]` after filtering and sorting (lines 191-198):
the last row of the segment's rows sorted by date, if any. -/
def baselineRecord (sid : Int) (recs : List LogRecord) : Option LogRecord :=
  (sortByDate (recs.filter (matchesSegment sid))).getLast?

/-- `int(last_entry['total_attempts_on_date'])` with the NaN / missing /
unconvertible fallbacks to 0 (lines 202-211). -/
def lastTotalOf : Option LogRecord → Int
  | none => 0
  | some last => last.total_attempts_on_date.getD 0

/-- The local state `update_master_log` builds while reading history
(lines 175-245): `last_total_attempts`, `is_first_entry_for_segment`,
and the flags `file_is_empty` / `file_exists` that decide the write
mode. -/
structure ParseState where
  last_total_attempts : Int
  is_first_entry_for_segment : Bool
  file_is_empty : Bool
  file_exists : Bool
deriving Repr, DecidableEq

/-- History reading of `update_master_log` (lines 175-245), one case per
parse outcome.  A `KeyError` leaves the initial
`is_first_entry_for_segment = True` and `file_is_empty = False`
untouched; a generic exception sets `file_is_empty = True` (line 238). -/
def readHistory (sid : Int) (f : LogFile) : ParseState :=
  match f with
  | .missing => ⟨0, true, true, false⟩
  | .emptyData => ⟨0, true, true, true⟩
  | .corrupt => ⟨0, true, true, true⟩
  | .badColumns _ => ⟨0, true, false, true⟩
  | .ok [] => ⟨0, true, true, true⟩
  | .ok (r :: rs) =>
    match baselineRecord sid (r :: rs) with
    | none => ⟨0, true, false, true⟩
    | some last => ⟨lastTotalOf (some last), false, false, true⟩

/-- Daily-delta computation (lines 248-260): 0 for a first entry,
otherwise the difference clamped at 0; the second component records
whether the negative-delta warning was printed. -/
def computeDaily (cur last : Int) (isFirst : Bool) : Int × Bool :=
  if isFirst then (0, false)
  else
    let d := cur - last
    if d < 0 then (0, true) else (d, false)

/-- Write mode chosen on lines 281-289. -/
inductive WriteMode where
  | w : WriteMode
  | a : WriteMode
deriving Repr, DecidableEq

/-- Effect of `f.write(new_data_row)` in append mode on the file's parse
outcome.  Appending to a well-formed file keeps it well-formed; appending
after a bad header leaves the file unreadable.  (Append mode is only ever
chosen for those two outcomes.) -/
def appendTo (f : LogFile) (n : LogRecord) : LogFile :=
  match f with
  | .ok recs => .ok (recs ++ [n])
  | .badColumns extra => .badColumns (extra ++ [n])
  | g => g

/-- Observable outcome of one `update_master_log` call: the file's new
parse outcome, the row appended (if any), whether the negative-delta
warning fired, whether the call bailed out on an invalid id, the write
mode used, and whether the header line was (re)written. -/
structure UpdateResult where
  file : LogFile
  appended : Option LogRecord
  warnedNegative : Bool
  invalidId : Bool
  mode : Option WriteMode
  wroteHeader : Bool
deriving Repr, DecidableEq

/-- Daily delta and warning flag for one call, as computed on lines
248-260 from the snapshot's `effort_count` and the history just read. -/
def dailyAndWarn (segment_data : SegmentData) (sid : Int) (f : LogFile) : Int × Bool :=
  computeDaily segment_data.effort_count (readHistory sid f).last_total_attempts
    (readHistory sid f).is_first_entry_for_segment

/-- The row written on line 276:
`segment_id,segment_name,today,current_total_attempts,daily_attempts,athlete_count`
(the CSV quoting of the name round-trips through the parser, so the
stored name is the snapshot's name). -/
def newRecordOf (today : Int) (segment_data : SegmentData) (sid : Int) (f : LogFile) :
    LogRecord :=
  { segment_id := some sid, segment_name := segment_data.name,
    date := today, total_attempts_on_date := some segment_data.effort_count,
    daily_attempts := (dailyAndWarn segment_data sid f).1,
    athlete_count := segment_data.athlete_count }

/-- `update_master_log(segment_data)` (lines 155-299), with today's date
and the file state passed explicitly.  An id that fails `int()` returns
at line 169 with no file access.  Otherwise the history is read, the
daily delta computed, and the new row written: mode `'w'` with a header
when the file was absent/empty/unparseable, mode `'a'` otherwise. -/
def update_master_log (today : Int) (segment_data : SegmentData) (f : LogFile) :
    UpdateResult :=
  match segment_data.id with
  | none =>
    { file := f, appended := none, warnedNegative := false,
      invalidId := true, mode := none, wroteHeader := false }
  | some sid =>
    let st := readHistory sid f
    let newRec := newRecordOf today segment_data sid f
    if st.file_is_empty || !st.file_exists then
      { file := .ok [newRec], appended := some newRec,
        warnedNegative := (dailyAndWarn segment_data sid f).2,
        invalidId := false, mode := some .w, wroteHeader := true }
    else
      { file := appendTo f newRec, appended := some newRec,
        warnedNegative := (dailyAndWarn segment_data sid f).2,
        invalidId := false, mode := some .a, wroteHeader := false }

/-- Rows readable from a file: only a well-formed file yields rows
(a corrupt or bad-header file yields none to any reader). -/
def logRecords : LogFile → List LogRecord
  | .ok recs => recs
  | _ => []

/-- Series plotted by `generate_plot` (lines 301-372): filter the log to
the segment, skip (empty series) when there is no data or the file is
missing/unreadable, otherwise prepend a synthetic `(min date - 1, 0)`
point to the date-sorted `(date, daily_attempts)` points
(lines 336-343). -/
def plotSeries (sid : Int) (f : LogFile) : List (Int × Int) :=
  match f with
  | .ok recs =>
    let seg := recs.filter (matchesSegment sid)
    if seg.isEmpty then []
    else
      ((seg.map (fun r => r.date)).min?.getD 0 - 1, 0) ::
        (sortByDate seg).map (fun r => (r.date, r.daily_attempts))
  | _ => []

/-- The log-update loop of `__main__` (lines 419-420): call
`update_master_log` for each fetched segment in order, threading the
file state. -/
def runUpdates (today : Int) (datas : List SegmentData) (f : LogFile) : LogFile :=
  datas.foldl (fun g d => (update_master_log today d g).file) f

/-- The fetch loop of `__main__` (lines 394-411), with each
`get_segment_data` outcome abstracted as `Option SegmentData` (`none` =
fetch failed, exception or `None` return).  Returns
`all_segment_data_current`, `processed_count`, `error_count`;
`fetchStep` is the body of one loop iteration (lines 397-408). -/
def fetchStep (acc : List SegmentData × Nat × Nat) (res : Option SegmentData) :
    List SegmentData × Nat × Nat :=
  match res with
  | some d => (acc.1 ++ [d], acc.2.1 + 1, acc.2.2)
  | none => (acc.1, acc.2.1, acc.2.2 + 1)

def fetchPhase (fetches : List (Option SegmentData)) :
    List SegmentData × Nat × Nat :=
  fetches.foldl fetchStep ([], 0, 0)

/-- Run summary of one invocation after the token was obtained:
exit code (this phase never calls `sys.exit`, so it is 0), the counts
printed on lines 432-433, the final file state, and the ids for which
`generate_plot` wrote a chart file. -/
structure RunSummary where
  exitCode : Nat
  processedCount : Nat
  errorCount : Nat
  finalLog : LogFile
  charts : List Int
deriving Repr, DecidableEq

/-- Chart artifact written by one `generate_plot` call (lines 424-425):
`some sid` when `int(segment_id)` succeeds and the series is nonempty,
`none` when the call skips or errors out. -/
def chartFor (final : LogFile) (d : SegmentData) : Option Int :=
  match d.id with
  | some sid => if (plotSeries sid final).isEmpty then none else some sid
  | none => none

/-- Steps 3-4 of `__main__` (lines 388-433): fetch every configured
segment, then (unless nothing was fetched) update the log per fetched
segment and generate one plot per fetched segment.  A chart is written
exactly when `int(segment_id)` succeeds and the plotted series is
nonempty (`generate_plot` skips otherwise). -/
def runBatch (today : Int) (fetches : List (Option SegmentData)) (f : LogFile) :
    RunSummary :=
  let fp := fetchPhase fetches
  if fp.1.isEmpty then
    { exitCode := 0, processedCount := fp.2.1, errorCount := fp.2.2,
      finalLog := f, charts := [] }
  else
    let final := runUpdates today fp.1 f
    { exitCode := 0, processedCount := fp.2.1, errorCount := fp.2.2,
      finalLog := final,
      charts := fp.1.filterMap (chartFor final) }

/-! ## Helper lemmas -/

theorem mem_of_getLastSome {α : Type} {l : List α} {b : α} (h : l.getLast? = some b) :
    b ∈ l := by
  cases l with
  | nil => simp at h
  | cons x xs =>
    have hne : x :: xs ≠ [] := by simp
    rw [List.getLast?_eq_getLast _ hne, Option.some.injEq] at h
    exact h ▸ List.getLast_mem hne

theorem getLast_max_of_sorted :
    ∀ {l : List LogRecord} {b : LogRecord}, List.Sorted dateLE l →
      l.getLast? = some b → ∀ a ∈ l, a.date ≤ b.date := by
  intro l
  induction l with
  | nil => intro b _ h; simp at h
  | cons x xs ih =>
    intro b hs h a ha
    rcases List.mem_cons.mp ha with rfl | ha
    · cases xs with
      | nil =>
        simp only [List.getLast?_singleton, Option.some.injEq] at h
        exact h ▸ le_refl _
      | cons y ys =>
        rw [List.getLast?_cons_cons] at h
        exact (List.sorted_cons.mp hs).1 b (mem_of_getLastSome h)
    · cases xs with
      | nil => simp at ha
      | cons y ys =>
        rw [List.getLast?_cons_cons] at h
        exact ih (List.sorted_cons.mp hs).2 h a ha

theorem date_inj_of_pairwise {l : List LogRecord}
    (hnd : l.Pairwise (fun a b => a.date ≠ b.date)) :
    ∀ a ∈ l, ∀ b ∈ l, a.date = b.date → a = b := by
  induction l with
  | nil => simp
  | cons x xs ih =>
    intro a ha b hb heq
    have hx := (List.pairwise_cons.mp hnd).1
    have htl := (List.pairwise_cons.mp hnd).2
    rcases List.mem_cons.mp ha with ha1 | ha2
    · rcases List.mem_cons.mp hb with hb1 | hb2
      · rw [ha1, hb1]
      · exact absurd (ha1 ▸ heq) (hx b hb2)
    · rcases List.mem_cons.mp hb with hb1 | hb2
      · exact absurd (hb1 ▸ heq.symm) (hx a ha2)
      · exact ih htl a ha2 b hb2 heq

theorem baselineRecord_mem_max {sid : Int} {recs : List LogRecord} {b : LogRecord}
    (h : baselineRecord sid recs = some b) :
    b ∈ recs.filter (matchesSegment sid) ∧
      ∀ r ∈ recs.filter (matchesSegment sid), r.date ≤ b.date := by
  unfold baselineRecord sortByDate at h
  constructor
  · exact (List.perm_insertionSort dateLE _).mem_iff.mp (mem_of_getLastSome h)
  · intro r hr
    exact getLast_max_of_sorted (List.sorted_insertionSort dateLE _) h r
      ((List.perm_insertionSort dateLE _).mem_iff.mpr hr)

theorem baselineRecord_isSome_of_ne_nil {sid : Int} {recs : List LogRecord}
    (hne : recs.filter (matchesSegment sid) ≠ []) :
    ∃ b, baselineRecord sid recs = some b := by
  unfold baselineRecord sortByDate
  have hsne : List.insertionSort dateLE (recs.filter (matchesSegment sid)) ≠ [] := by
    intro h0
    exact hne ((List.perm_insertionSort dateLE _).symm.trans (h0 ▸ List.Perm.refl _)).eq_nil
  exact ⟨_, List.getLast?_eq_getLast _ hsne⟩

theorem readHistory_ok_cons_flags (sid : Int) (r : LogRecord) (rs : List LogRecord) :
    (readHistory sid (.ok (r :: rs))).file_is_empty = false ∧
    (readHistory sid (.ok (r :: rs))).file_exists = true := by
  unfold readHistory
  rcases hb : baselineRecord sid (r :: rs) with _ | b <;> simp [hb]

theorem update_appended_eq (today : Int) (d : SegmentData) (f : LogFile) (sid : Int)
    (hid : d.id = some sid) :
    (update_master_log today d f).appended = some (newRecordOf today d sid f) ∧
    (update_master_log today d f).warnedNegative = (dailyAndWarn d sid f).2 := by
  simp only [update_master_log, hid]
  split <;> simp

theorem update_file_ok (today : Int) (d : SegmentData) (recs : List LogRecord) (sid : Int)
    (hid : d.id = some sid) :
    (update_master_log today d (.ok recs)).file =
      .ok (recs ++ [newRecordOf today d sid (.ok recs)]) := by
  cases recs with
  | nil => simp [update_master_log, hid, readHistory]
  | cons r rs =>
    have hfl := readHistory_ok_cons_flags sid r rs
    simp [update_master_log, hid, hfl.1, hfl.2, appendTo]

theorem computeDaily_fst_nonneg (cur last : Int) (isFirst : Bool) :
    0 ≤ (computeDaily cur last isFirst).1 := by
  unfold computeDaily
  split
  · simp
  · simp only
    split
    · simp
    · simp only
      omega

theorem readHistory_isFirst_of_no_match (sid : Int) (f : LogFile)
    (hnone : (logRecords f).filter (matchesSegment sid) = []) :
    (readHistory sid f).is_first_entry_for_segment = true := by
  cases f with
  | missing => rfl
  | emptyData => rfl
  | corrupt => rfl
  | badColumns extra => rfl
  | ok recs =>
    cases recs with
    | nil => rfl
    | cons r rs =>
      have hb : baselineRecord sid (r :: rs) = none := by
        unfold baselineRecord
        rw [show (r :: rs).filter (matchesSegment sid) = [] from hnone]
        rfl
      simp [readHistory, hb]

theorem readHistory_ok_of_baseline (sid : Int) (r : LogRecord) (rs : List LogRecord)
    (b : LogRecord) (hb : baselineRecord sid (r :: rs) = some b) :
    readHistory sid (.ok (r :: rs)) =
      ⟨b.total_attempts_on_date.getD 0, false, false, true⟩ := by
  unfold readHistory
  simp [hb, lastTotalOf]

/-! ## Claim theorems -/

/-- C10: a snapshot whose id cannot be converted to an integer makes
`update_master_log` return at line 169: nothing is appended, the file is
untouched (no header creation), and no exception escapes. -/
theorem invalid_id_is_noop (today : Int) (d : SegmentData) (f : LogFile)
    (hid : d.id = none) :
    update_master_log today d f =
      { file := f, appended := none, warnedNegative := false,
        invalidId := true, mode := none, wroteHeader := false } := by
  simp [update_master_log, hid]

theorem invalid_id_is_noop_witness :
    (⟨none, "x", 3, 4⟩ : SegmentData).id = none ∧
    update_master_log 5 ⟨none, "x", 3, 4⟩ (.ok [⟨some 2, "o", 1, some 9, 9, 1⟩]) =
      { file := .ok [⟨some 2, "o", 1, some 9, 9, 1⟩], appended := none,
        warnedNegative := false, invalidId := true, mode := none,
        wroteHeader := false } :=
  ⟨rfl, invalid_id_is_noop 5 ⟨none, "x", 3, 4⟩ (.ok [⟨some 2, "o", 1, some 9, 9, 1⟩]) rfl⟩

/-- C1: first-observation rule: when the log holds no record for the
snapshot's segment, the appended record has `daily_attempts = 0`,
regardless of the snapshot's cumulative count. -/
theorem first_observation_daily_attempts_zero (today : Int) (d : SegmentData)
    (f : LogFile) (sid : Int) (hid : d.id = some sid)
    (hnone : (logRecords f).filter (matchesSegment sid) = []) :
    ∃ n, (update_master_log today d f).appended = some n ∧ n.daily_attempts = 0 := by
  refine ⟨newRecordOf today d sid f, (update_appended_eq today d f sid hid).1, ?_⟩
  have hfirst := readHistory_isFirst_of_no_match sid f hnone
  simp [newRecordOf, dailyAndWarn, computeDaily, hfirst]

theorem first_observation_witness :
    (⟨some 1, "n", 5000, 7⟩ : SegmentData).id = some 1 ∧
    (logRecords (.ok [⟨some 2, "o", 1, some 9, 9, 1⟩])).filter (matchesSegment 1) = [] ∧
    ∃ n, (update_master_log 12 ⟨some 1, "n", 5000, 7⟩
        (.ok [⟨some 2, "o", 1, some 9, 9, 1⟩])).appended = some n ∧
      n.daily_attempts = 0 :=
  ⟨rfl, by decide,
    first_observation_daily_attempts_zero 12 ⟨some 1, "n", 5000, 7⟩
      (.ok [⟨some 2, "o", 1, some 9, 9, 1⟩]) 1 rfl (by decide)⟩

/-- C6: corrupt-history fallback: a generic read/parse failure does not
abort the call; the history counts as empty, the call is a first
observation (`daily_attempts = 0`), and a new record is still written. -/
theorem corrupt_history_first_observation (today : Int) (d : SegmentData) (sid : Int)
    (hid : d.id = some sid) :
    ∃ n, (update_master_log today d .corrupt).appended = some n ∧
      n.daily_attempts = 0 ∧
      (update_master_log today d .corrupt).file = .ok [n] := by
  refine ⟨newRecordOf today d sid .corrupt,
    (update_appended_eq today d .corrupt sid hid).1, ?_, ?_⟩
  · simp [newRecordOf, dailyAndWarn, readHistory, computeDaily]
  · simp [update_master_log, hid, readHistory]

theorem corrupt_history_first_observation_witness :
    (⟨some 9, "n", 321, 4⟩ : SegmentData).id = some 9 ∧
    ∃ n, (update_master_log 7 ⟨some 9, "n", 321, 4⟩ .corrupt).appended = some n ∧
      n.daily_attempts = 0 ∧
      (update_master_log 7 ⟨some 9, "n", 321, 4⟩ .corrupt).file = .ok [n] :=
  ⟨rfl, corrupt_history_first_observation 7 ⟨some 9, "n", 321, 4⟩ 9 rfl⟩

/-- C9: implicit rewrite on unreadable history: after a generic parse
failure the write uses mode `'w'`, so the file afterwards holds exactly
the header plus the single new record; previously persisted rows are
gone. -/
theorem corrupt_history_overwrite (today : Int) (d : SegmentData) (sid : Int)
    (hid : d.id = some sid) :
    (update_master_log today d .corrupt).mode = some .w ∧
    (update_master_log today d .corrupt).wroteHeader = true ∧
    ∃ n, (update_master_log today d .corrupt).file = .ok [n] := by
  refine ⟨?_, ?_, ⟨newRecordOf today d sid .corrupt, ?_⟩⟩ <;>
    simp [update_master_log, hid, readHistory]

theorem corrupt_history_overwrite_witness :
    (⟨some 3, "m", 50, 2⟩ : SegmentData).id = some 3 ∧
    ((update_master_log 8 ⟨some 3, "m", 50, 2⟩ .corrupt).mode = some .w ∧
     (update_master_log 8 ⟨some 3, "m", 50, 2⟩ .corrupt).wroteHeader = true ∧
     ∃ n, (update_master_log 8 ⟨some 3, "m", 50, 2⟩ .corrupt).file = .ok [n]) :=
  ⟨rfl, corrupt_history_overwrite 8 ⟨some 3, "m", 50, 2⟩ 3 rfl⟩

/-- C2 as stated is falsified by the clamp: with a prior record carrying
`total_attempts_on_date = 200` and a snapshot with `cumulative_attempts =
150`, the appended record has `daily_attempts = 0`, not `150 - 200`. -/
theorem delta_unconditional_counterexample :
    ((update_master_log 10 ⟨some 1, "s", 150, 3⟩
        (.ok [⟨some 1, "s", 3, some 200, 0, 3⟩])).appended.map
      (fun r => r.daily_attempts)) = some 0 ∧
    ((update_master_log 10 ⟨some 1, "s", 150, 3⟩
        (.ok [⟨some 1, "s", 3, some 200, 0, 3⟩])).appended.map
      (fun r => r.daily_attempts)) ≠ some (150 - 200) := by decide

/-- C2 amended: when the baseline record's `total_attempts_on_date` is
present and at most the snapshot's cumulative count, the appended record
has `daily_attempts = cumulative - baseline` and stores the snapshot's
cumulative attempts and athlete count. -/
theorem delta_of_baseline (today : Int) (d : SegmentData) (recs : List LogRecord)
    (sid : Int) (b : LogRecord) (t : Int)
    (hid : d.id = some sid)
    (hb : baselineRecord sid recs = some b)
    (ht : b.total_attempts_on_date = some t)
    (hle : t ≤ d.effort_count) :
    ∃ n, (update_master_log today d (.ok recs)).appended = some n ∧
      n.daily_attempts = d.effort_count - t ∧
      n.total_attempts_on_date = some d.effort_count ∧
      n.athlete_count = d.athlete_count := by
  cases recs with
  | nil => simp [baselineRecord, sortByDate, List.insertionSort] at hb
  | cons r rs =>
    refine ⟨newRecordOf today d sid (.ok (r :: rs)),
      (update_appended_eq today d (.ok (r :: rs)) sid hid).1, ?_, rfl, rfl⟩
    have hrh := readHistory_ok_of_baseline sid r rs b hb
    simp [newRecordOf, dailyAndWarn, hrh, computeDaily, ht, not_lt.mpr hle]

theorem delta_of_baseline_witness :
    (⟨some 1, "s", 137, 3⟩ : SegmentData).id = some 1 ∧
    baselineRecord 1 [⟨some 1, "s", 3, some 100, 0, 3⟩] =
      some ⟨some 1, "s", 3, some 100, 0, 3⟩ ∧
    (⟨some 1, "s", 3, some 100, 0, 3⟩ : LogRecord).total_attempts_on_date = some 100 ∧
    (100 : Int) ≤ 137 ∧
    ∃ n, (update_master_log 10 ⟨some 1, "s", 137, 3⟩
        (.ok [⟨some 1, "s", 3, some 100, 0, 3⟩])).appended = some n ∧
      n.daily_attempts = 137 - 100 ∧
      n.total_attempts_on_date = some 137 ∧
      n.athlete_count = 3 :=
  ⟨rfl, by decide, rfl, by decide,
    delta_of_baseline 10 ⟨some 1, "s", 137, 3⟩ [⟨some 1, "s", 3, some 100, 0, 3⟩]
      1 ⟨some 1, "s", 3, some 100, 0, 3⟩ 100 rfl (by decide) rfl (by decide)⟩

/-- C4: negative-delta clamp: when the snapshot's cumulative count is
below the baseline's `total_attempts_on_date`, the appended record has
`daily_attempts = 0` and the warning fires; moreover no appended record
ever has a negative `daily_attempts`. -/
theorem negative_delta_clamp_spec :
    (∀ (today : Int) (d : SegmentData) (recs : List LogRecord) (sid : Int)
        (b : LogRecord) (t : Int),
      d.id = some sid → baselineRecord sid recs = some b →
      b.total_attempts_on_date = some t → d.effort_count < t →
      ∃ n, (update_master_log today d (.ok recs)).appended = some n ∧
        n.daily_attempts = 0 ∧
        (update_master_log today d (.ok recs)).warnedNegative = true) ∧
    (∀ (today : Int) (d : SegmentData) (f : LogFile) (n : LogRecord),
      (update_master_log today d f).appended = some n → 0 ≤ n.daily_attempts) := by
  constructor
  · intro today d recs sid b t hid hb ht hlt
    cases recs with
    | nil => simp [baselineRecord, sortByDate, List.insertionSort] at hb
    | cons r rs =>
      have hrh := readHistory_ok_of_baseline sid r rs b hb
      refine ⟨newRecordOf today d sid (.ok (r :: rs)),
        (update_appended_eq today d (.ok (r :: rs)) sid hid).1, ?_, ?_⟩
      · simp [newRecordOf, dailyAndWarn, hrh, computeDaily, ht, hlt]
      · rw [(update_appended_eq today d (.ok (r :: rs)) sid hid).2]
        simp [dailyAndWarn, hrh, computeDaily, ht, hlt]
  · intro today d f n h
    cases hid : d.id with
    | none => simp [update_master_log, hid] at h
    | some sid =>
      rw [(update_appended_eq today d f sid hid).1] at h
      have hn := Option.some.inj h
      subst hn
      simpa [newRecordOf, dailyAndWarn] using
        computeDaily_fst_nonneg d.effort_count
          (readHistory sid f).last_total_attempts
          (readHistory sid f).is_first_entry_for_segment

theorem negative_delta_clamp_witness :
    (⟨some 1, "s", 150, 3⟩ : SegmentData).id = some 1 ∧
    baselineRecord 1 [⟨some 1, "s", 3, some 200, 0, 3⟩] =
      some ⟨some 1, "s", 3, some 200, 0, 3⟩ ∧
    (⟨some 1, "s", 3, some 200, 0, 3⟩ : LogRecord).total_attempts_on_date = some 200 ∧
    (150 : Int) < 200 ∧
    ∃ n, (update_master_log 10 ⟨some 1, "s", 150, 3⟩
        (.ok [⟨some 1, "s", 3, some 200, 0, 3⟩])).appended = some n ∧
      n.daily_attempts = 0 ∧
      (update_master_log 10 ⟨some 1, "s", 150, 3⟩
        (.ok [⟨some 1, "s", 3, some 200, 0, 3⟩])).warnedNegative = true :=
  ⟨rfl, by decide, rfl, by decide,
    negative_delta_clamp_spec.1 10 ⟨some 1, "s", 150, 3⟩
      [⟨some 1, "s", 3, some 200, 0, 3⟩] 1 ⟨some 1, "s", 3, some 200, 0, 3⟩ 200
      rfl (by decide) rfl (by decide)⟩

/-- C3: most-recent-by-date selection: with at least two prior records
for the segment, all on pairwise distinct dates, the baseline is the
record of maximal date, the same for any reordering of the log, and its
`total_attempts_on_date` is what `readHistory` takes as `last_total`. -/
theorem baseline_uses_most_recent_date (sid : Int) (recs recsP : List LogRecord)
    (hperm : recsP.Perm recs)
    (hlen : 2 ≤ (recs.filter (matchesSegment sid)).length)
    (hnd : (recs.filter (matchesSegment sid)).Pairwise (fun a b => a.date ≠ b.date)) :
    ∃ b, baselineRecord sid recs = some b ∧
      b ∈ recs.filter (matchesSegment sid) ∧
      (∀ r ∈ recs.filter (matchesSegment sid), r.date ≤ b.date) ∧
      baselineRecord sid recsP = some b ∧
      (readHistory sid (.ok recs)).last_total_attempts =
        b.total_attempts_on_date.getD 0 := by
  obtain ⟨r, rs, rfl⟩ : ∃ r rs, recs = r :: rs := by
    cases recs with
    | nil => simp at hlen
    | cons r rs => exact ⟨r, rs, rfl⟩
  have hne : (r :: rs).filter (matchesSegment sid) ≠ [] := by
    intro h0
    rw [h0] at hlen
    simp at hlen
  obtain ⟨b, hb⟩ := baselineRecord_isSome_of_ne_nil hne
  have hspec := baselineRecord_mem_max hb
  have hpermF : (recsP.filter (matchesSegment sid)).Perm
      ((r :: rs).filter (matchesSegment sid)) := hperm.filter _
  have hneP : recsP.filter (matchesSegment sid) ≠ [] := by
    intro h0
    apply hne
    have hsp := hpermF.symm
    rw [h0] at hsp
    exact hsp.eq_nil
  obtain ⟨b2, hb2⟩ := baselineRecord_isSome_of_ne_nil hneP
  have hspec2 := baselineRecord_mem_max hb2
  have hb2mem : b2 ∈ (r :: rs).filter (matchesSegment sid) :=
    hpermF.mem_iff.mp hspec2.1
  have hbmemP : b ∈ recsP.filter (matchesSegment sid) :=
    hpermF.mem_iff.mpr hspec.1
  have hdeq : b2.date = b.date :=
    le_antisymm (hspec.2 b2 hb2mem) (hspec2.2 b hbmemP)
  have hbb : b2 = b := date_inj_of_pairwise hnd b2 hb2mem b hspec.1 hdeq
  refine ⟨b, hb, hspec.1, hspec.2, hbb ▸ hb2, ?_⟩
  rw [readHistory_ok_of_baseline sid r rs b hb]

theorem baseline_uses_most_recent_date_witness :
    ([⟨some 1, "s", 3, some 25, 0, 2⟩, ⟨some 1, "s", 1, some 10, 0, 2⟩] :
        List LogRecord).Perm
      [⟨some 1, "s", 1, some 10, 0, 2⟩, ⟨some 1, "s", 3, some 25, 0, 2⟩] ∧
    2 ≤ (([⟨some 1, "s", 1, some 10, 0, 2⟩, ⟨some 1, "s", 3, some 25, 0, 2⟩] :
        List LogRecord).filter (matchesSegment 1)).length ∧
    (([⟨some 1, "s", 1, some 10, 0, 2⟩, ⟨some 1, "s", 3, some 25, 0, 2⟩] :
        List LogRecord).filter (matchesSegment 1)).Pairwise
      (fun a b => a.date ≠ b.date) ∧
    ∃ b, baselineRecord 1
        [⟨some 1, "s", 1, some 10, 0, 2⟩, ⟨some 1, "s", 3, some 25, 0, 2⟩] = some b ∧
      b ∈ ([⟨some 1, "s", 1, some 10, 0, 2⟩, ⟨some 1, "s", 3, some 25, 0, 2⟩] :
          List LogRecord).filter (matchesSegment 1) ∧
      (∀ r ∈ ([⟨some 1, "s", 1, some 10, 0, 2⟩, ⟨some 1, "s", 3, some 25, 0, 2⟩] :
          List LogRecord).filter (matchesSegment 1), r.date ≤ b.date) ∧
      baselineRecord 1
        [⟨some 1, "s", 3, some 25, 0, 2⟩, ⟨some 1, "s", 1, some 10, 0, 2⟩] = some b ∧
      (readHistory 1 (.ok
        [⟨some 1, "s", 1, some 10, 0, 2⟩, ⟨some 1, "s", 3, some 25, 0, 2⟩])).last_total_attempts =
        b.total_attempts_on_date.getD 0 :=
  ⟨by decide, by decide, by decide,
    baseline_uses_most_recent_date 1
      [⟨some 1, "s", 1, some 10, 0, 2⟩, ⟨some 1, "s", 3, some 25, 0, 2⟩]
      [⟨some 1, "s", 3, some 25, 0, 2⟩, ⟨some 1, "s", 1, some 10, 0, 2⟩]
      (by decide) (by decide) (by decide)⟩

theorem runUpdates_ok_spec (today : Int) :
    ∀ (datas : List SegmentData) (recs0 : List LogRecord),
      (∀ d ∈ datas, d.id ≠ none) →
      ∃ newRecs, runUpdates today datas (.ok recs0) = .ok (recs0 ++ newRecs) ∧
        newRecs.length = datas.length ∧
        ∀ d ∈ datas, ∃ r ∈ newRecs, r.segment_id = d.id := by
  intro datas
  induction datas with
  | nil =>
    intro recs0 _
    exact ⟨[], by simp [runUpdates], rfl, by simp⟩
  | cons d ds ih =>
    intro recs0 h
    have hd := h d (List.mem_cons_self d ds)
    obtain ⟨sid, hsid⟩ := Option.ne_none_iff_exists'.mp hd
    have hstep : runUpdates today (d :: ds) (.ok recs0) =
        runUpdates today ds (.ok (recs0 ++ [newRecordOf today d sid (.ok recs0)])) := by
      simp only [runUpdates, List.foldl_cons]
      rw [update_file_ok today d recs0 sid hsid]
    obtain ⟨nr, hnr, hlen, hmem⟩ :=
      ih (recs0 ++ [newRecordOf today d sid (.ok recs0)])
        (fun x hx => h x (List.mem_cons_of_mem d hx))
    refine ⟨newRecordOf today d sid (.ok recs0) :: nr, ?_, by simp [hlen], ?_⟩
    · rw [hstep, hnr]
      simp
    · intro x hx
      rcases List.mem_cons.mp hx with h1 | h2
      · refine ⟨newRecordOf today d sid (.ok recs0), List.mem_cons_self _ _, ?_⟩
        rw [h1, hsid]
        rfl
      · obtain ⟨r, hr, hrid⟩ := hmem x h2
        exact ⟨r, List.mem_cons_of_mem _ hr, hrid⟩

/-- C5: append-only invariant: starting from a well-formed log, a
sequence of N `update_master_log` calls with valid snapshot ids leaves
every existing row in place unchanged and grows the row count by exactly
N. -/
theorem append_only_invariant (today : Int) (recs0 : List LogRecord)
    (datas : List SegmentData) (h : ∀ d ∈ datas, d.id ≠ none) :
    ∃ newRecs, runUpdates today datas (.ok recs0) = .ok (recs0 ++ newRecs) ∧
      (logRecords (runUpdates today datas (.ok recs0))).length =
        recs0.length + datas.length ∧
      (logRecords (runUpdates today datas (.ok recs0))).take recs0.length = recs0 := by
  obtain ⟨newRecs, hrun, hlen, _⟩ := runUpdates_ok_spec today datas recs0 h
  refine ⟨newRecs, hrun, ?_, ?_⟩
  · rw [hrun]
    simp [logRecords, hlen]
  · rw [hrun]
    simp [logRecords]

theorem append_only_invariant_witness :
    (∀ d ∈ ([⟨some 1, "a", 40, 4⟩, ⟨some 2, "b", 7, 2⟩] : List SegmentData),
      d.id ≠ none) ∧
    ∃ newRecs,
      runUpdates 20 [⟨some 1, "a", 40, 4⟩, ⟨some 2, "b", 7, 2⟩]
        (.ok [⟨some 1, "s", 3, some 30, 0, 3⟩]) =
        .ok ([⟨some 1, "s", 3, some 30, 0, 3⟩] ++ newRecs) ∧
      (logRecords (runUpdates 20 [⟨some 1, "a", 40, 4⟩, ⟨some 2, "b", 7, 2⟩]
        (.ok [⟨some 1, "s", 3, some 30, 0, 3⟩]))).length =
        ([⟨some 1, "s", 3, some 30, 0, 3⟩] : List LogRecord).length + 2 ∧
      (logRecords (runUpdates 20 [⟨some 1, "a", 40, 4⟩, ⟨some 2, "b", 7, 2⟩]
        (.ok [⟨some 1, "s", 3, some 30, 0, 3⟩]))).take
          ([⟨some 1, "s", 3, some 30, 0, 3⟩] : List LogRecord).length =
        [⟨some 1, "s", 3, some 30, 0, 3⟩] :=
  ⟨by decide,
    append_only_invariant 20 [⟨some 1, "s", 3, some 30, 0, 3⟩]
      [⟨some 1, "a", 40, 4⟩, ⟨some 2, "b", 7, 2⟩] (by decide)⟩

/-- C7: renderer baseline: for a segment with at least one record, the
plotted series starts with a synthetic point one day before the earliest
real date with value 0, followed by the real `(date, daily_attempts)`
points in ascending date order. -/
theorem renderer_prepends_zero_baseline (recs : List LogRecord) (sid : Int) (D : Int)
    (hne : recs.filter (matchesSegment sid) ≠ [])
    (hD : ((recs.filter (matchesSegment sid)).map (fun r => r.date)).min? = some D) :
    ∃ t, plotSeries sid (.ok recs) = (D - 1, 0) :: t ∧
      t.Pairwise (fun p q : Int × Int => p.1 ≤ q.1) ∧
      t.Perm ((recs.filter (matchesSegment sid)).map
        (fun r => (r.date, r.daily_attempts))) := by
  refine ⟨(sortByDate (recs.filter (matchesSegment sid))).map
      (fun r => (r.date, r.daily_attempts)), ?_, ?_, ?_⟩
  · obtain ⟨x, xs, hfe⟩ : ∃ x xs, recs.filter (matchesSegment sid) = x :: xs := by
      cases hfe : recs.filter (matchesSegment sid) with
      | nil => exact absurd hfe hne
      | cons x xs => exact ⟨x, xs, rfl⟩
    simp only [plotSeries]
    rw [hfe] at hD ⊢
    rw [hD]
    rfl
  · exact List.pairwise_map.mpr (List.sorted_insertionSort dateLE _)
  · exact (List.perm_insertionSort dateLE _).map _

theorem renderer_prepends_zero_baseline_witness :
    ([⟨some 1, "s", 5, some 8, 8, 2⟩] : List LogRecord).filter (matchesSegment 1) ≠ [] ∧
    ((([⟨some 1, "s", 5, some 8, 8, 2⟩] : List LogRecord).filter
        (matchesSegment 1)).map (fun r => r.date)).min? = some 5 ∧
    ∃ t, plotSeries 1 (.ok [⟨some 1, "s", 5, some 8, 8, 2⟩]) = (5 - 1, 0) :: t ∧
      t.Pairwise (fun p q : Int × Int => p.1 ≤ q.1) ∧
      t.Perm ((([⟨some 1, "s", 5, some 8, 8, 2⟩] : List LogRecord).filter
        (matchesSegment 1)).map (fun r => (r.date, r.daily_attempts))) :=
  ⟨by decide, by decide,
    renderer_prepends_zero_baseline [⟨some 1, "s", 5, some 8, 8, 2⟩] 1 5
      (by decide) (by decide)⟩

theorem foldl_fetchStep (fetches : List (Option SegmentData)) :
    ∀ acc, fetches.foldl fetchStep acc =
      (acc.1 ++ fetches.filterMap id,
       acc.2.1 + (fetches.filter (fun r => r.isSome)).length,
       acc.2.2 + (fetches.filter (fun r => r.isNone)).length) := by
  induction fetches with
  | nil => intro acc; simp
  | cons rOpt rest ih =>
    intro acc
    cases rOpt with
    | some d =>
      rw [List.foldl_cons, ih]
      simp [fetchStep, List.filterMap_cons, List.filter_cons]
      omega
    | none =>
      rw [List.foldl_cons, ih]
      simp [fetchStep, List.filterMap_cons, List.filter_cons]
      omega

theorem fetchPhase_eq (fetches : List (Option SegmentData)) :
    fetchPhase fetches = (fetches.filterMap id,
      (fetches.filter (fun r => r.isSome)).length,
      (fetches.filter (fun r => r.isNone)).length) := by
  have h := foldl_fetchStep fetches ([], 0, 0)
  simpa [fetchPhase] using h

theorem length_filterMap_id_eq (fetches : List (Option SegmentData)) :
    (fetches.filterMap id).length = (fetches.filter (fun r => r.isSome)).length := by
  induction fetches with
  | nil => rfl
  | cons r rest ih => cases r <;> simp [List.filterMap_cons, List.filter_cons, ih]

theorem length_filterMap_of_isSome {α β : Type} (f : α → Option β) :
    ∀ (l : List α), (∀ x ∈ l, (f x).isSome) → (l.filterMap f).length = l.length := by
  intro l
  induction l with
  | nil => intro _; rfl
  | cons x xs ih =>
    intro h
    obtain ⟨y, hy⟩ := Option.isSome_iff_exists.mp (h x (List.mem_cons_self x xs))
    rw [List.filterMap_cons, hy]
    simp [ih (fun z hz => h z (List.mem_cons_of_mem x hz))]

theorem plotSeries_ne_nil_of_mem {recs : List LogRecord} {sid : Int} {r : LogRecord}
    (hr : r ∈ recs) (hrid : r.segment_id = some sid) :
    plotSeries sid (.ok recs) ≠ [] := by
  have hmem : r ∈ recs.filter (matchesSegment sid) :=
    List.mem_filter.mpr ⟨hr, by simp [matchesSegment, hrid]⟩
  cases hfe : recs.filter (matchesSegment sid) with
  | nil =>
    rw [hfe] at hmem
    simp at hmem
  | cons x xs =>
    simp only [plotSeries]
    rw [hfe]
    simp

theorem isEmpty_false_of_ne_nil {α : Type} {l : List α} (h : l ≠ []) :
    l.isEmpty = false := by
  cases l with
  | nil => exact absurd rfl h
  | cons a t => rfl

/-- C8: partial-failure behaviour: with at least one successful fetch
(all successes carrying convertible ids) and any number of failures, the
post-token phase exits 0, the printed counts are the numbers of
successful and failed fetches, exactly one record is appended per
successful fetch (none for failures), and one chart is written per
successful fetch. -/
theorem partial_failure_run (today : Int) (fetches : List (Option SegmentData))
    (recs0 : List LogRecord)
    (hvalid : ∀ d : SegmentData, some d ∈ fetches → d.id ≠ none)
    (hsucc : ∃ d : SegmentData, some d ∈ fetches) :
    (runBatch today fetches (.ok recs0)).exitCode = 0 ∧
    (runBatch today fetches (.ok recs0)).processedCount =
      (fetches.filter (fun r => r.isSome)).length ∧
    (runBatch today fetches (.ok recs0)).errorCount =
      (fetches.filter (fun r => r.isNone)).length ∧
    (∃ newRecs,
      (runBatch today fetches (.ok recs0)).finalLog = .ok (recs0 ++ newRecs) ∧
      newRecs.length = (fetches.filter (fun r => r.isSome)).length) ∧
    (runBatch today fetches (.ok recs0)).charts.length =
      (fetches.filter (fun r => r.isSome)).length := by
  have hdne : fetches.filterMap id ≠ [] := by
    obtain ⟨d, hd⟩ := hsucc
    exact List.ne_nil_of_mem (List.mem_filterMap.mpr ⟨some d, hd, rfl⟩)
  have hvalid2 : ∀ d ∈ fetches.filterMap id, d.id ≠ none := by
    intro d hd
    obtain ⟨a, ha, hae⟩ := List.mem_filterMap.mp hd
    cases a with
    | none => exact absurd hae (by simp)
    | some x =>
      have hx : x = d := by simpa using hae
      exact hx ▸ hvalid x ha
  obtain ⟨newRecs, hrun, hlen, hmem⟩ :=
    runUpdates_ok_spec today (fetches.filterMap id) recs0 hvalid2
  have hrb : runBatch today fetches (.ok recs0) =
      { exitCode := 0,
        processedCount := (fetches.filter (fun r => r.isSome)).length,
        errorCount := (fetches.filter (fun r => r.isNone)).length,
        finalLog := runUpdates today (fetches.filterMap id) (.ok recs0),
        charts := (fetches.filterMap id).filterMap
          (chartFor (runUpdates today (fetches.filterMap id) (.ok recs0))) } := by
    unfold runBatch
    rw [fetchPhase_eq fetches]
    simp [isEmpty_false_of_ne_nil hdne]
  have hcharts : ∀ d ∈ fetches.filterMap id,
      ((chartFor (runUpdates today (fetches.filterMap id) (.ok recs0))) d).isSome := by
    intro d hd
    obtain ⟨sid, hsid⟩ := Option.ne_none_iff_exists'.mp (hvalid2 d hd)
    obtain ⟨r, hrmem, hrid⟩ := hmem d hd
    have hrid2 : r.segment_id = some sid := by rw [hrid, hsid]
    have hplot : plotSeries sid (runUpdates today (fetches.filterMap id) (.ok recs0)) ≠ [] := by
      rw [hrun]
      exact plotSeries_ne_nil_of_mem (List.mem_append_right recs0 hrmem) hrid2
    simp [chartFor, hsid, isEmpty_false_of_ne_nil hplot]
  refine ⟨by rw [hrb], by rw [hrb], by rw [hrb], ⟨newRecs, ?_, ?_⟩, ?_⟩
  · rw [hrb]
    exact hrun
  · rw [hlen]
    exact length_filterMap_id_eq fetches
  · rw [hrb]
    exact (length_filterMap_of_isSome _ _ hcharts).trans (length_filterMap_id_eq fetches)

theorem partial_failure_run_witness :
    (∀ d : SegmentData,
      some d ∈ ([some ⟨some 1, "a", 5, 1⟩, none, some ⟨some 2, "b", 7, 2⟩] :
        List (Option SegmentData)) → d.id ≠ none) ∧
    (∃ d : SegmentData,
      some d ∈ ([some ⟨some 1, "a", 5, 1⟩, none, some ⟨some 2, "b", 7, 2⟩] :
        List (Option SegmentData))) ∧
    (runBatch 10 [some ⟨some 1, "a", 5, 1⟩, none, some ⟨some 2, "b", 7, 2⟩]
        (.ok [])).exitCode = 0 ∧
    (runBatch 10 [some ⟨some 1, "a", 5, 1⟩, none, some ⟨some 2, "b", 7, 2⟩]
        (.ok [])).processedCount =
      (([some ⟨some 1, "a", 5, 1⟩, none, some ⟨some 2, "b", 7, 2⟩] :
        List (Option SegmentData)).filter (fun r => r.isSome)).length ∧
    (runBatch 10 [some ⟨some 1, "a", 5, 1⟩, none, some ⟨some 2, "b", 7, 2⟩]
        (.ok [])).errorCount =
      (([some ⟨some 1, "a", 5, 1⟩, none, some ⟨some 2, "b", 7, 2⟩] :
        List (Option SegmentData)).filter (fun r => r.isNone)).length ∧
    (∃ newRecs,
      (runBatch 10 [some ⟨some 1, "a", 5, 1⟩, none, some ⟨some 2, "b", 7, 2⟩]
          (.ok [])).finalLog = .ok ([] ++ newRecs) ∧
      newRecs.length =
        (([some ⟨some 1, "a", 5, 1⟩, none, some ⟨some 2, "b", 7, 2⟩] :
          List (Option SegmentData)).filter (fun r => r.isSome)).length) ∧
    (runBatch 10 [some ⟨some 1, "a", 5, 1⟩, none, some ⟨some 2, "b", 7, 2⟩]
        (.ok [])).charts.length =
      (([some ⟨some 1, "a", 5, 1⟩, none, some ⟨some 2, "b", 7, 2⟩] :
        List (Option SegmentData)).filter (fun r => r.isSome)).length := by
  have hv : ∀ d : SegmentData,
      some d ∈ ([some ⟨some 1, "a", 5, 1⟩, none, some ⟨some 2, "b", 7, 2⟩] :
        List (Option SegmentData)) → d.id ≠ none := by
    intro d hd
    rcases List.mem_cons.mp hd with h1 | hd2
    · rw [Option.some.inj h1]
      simp
    · rcases List.mem_cons.mp hd2 with h2 | hd3
      · exact absurd h2 (by simp)
      · rcases List.mem_cons.mp hd3 with h3 | hd4
        · rw [Option.some.inj h3]
          simp
        · simp at hd4
  have hs : ∃ d : SegmentData,
      some d ∈ ([some ⟨some 1, "a", 5, 1⟩, none, some ⟨some 2, "b", 7, 2⟩] :
        List (Option SegmentData)) :=
    ⟨⟨some 1, "a", 5, 1⟩, List.mem_cons_self _ _⟩
  have h := partial_failure_run 10
    [some ⟨some 1, "a", 5, 1⟩, none, some ⟨some 2, "b", 7, 2⟩] [] hv hs
  exact ⟨hv, hs, h.1, h.2.1, h.2.2.1, h.2.2.2.1, h.2.2.2.2⟩
